import Mathlib

/-!
Verification development for the nivalis-studio/iban library.

Strings of the TypeScript source are modelled as `List Char`; JavaScript
machine numbers that stay below 2^53 are modelled as `Nat` (every value
computed by the library is a small non-negative integer); code that can
throw is modelled with `Except (List Char)`, the error payload being the
thrown message.  Each definition below is a direct transcription of the
function of the same name in the source.
-/

deriving instance DecidableEq for Except

/-- ASCII decimal digit test, the character range 0-9 used by the source's
regular expressions. -/
def isDigitB (c : Char) : Bool := 48 ≤ c.toNat && c.toNat ≤ 57

/-- ASCII uppercase letter test, the character range A-Z. -/
def isUpperB (c : Char) : Bool := 65 ≤ c.toNat && c.toNat ≤ 90

/-- ASCII lowercase letter test, the character range a-z. -/
def isLowerB (c : Char) : Bool := 97 ≤ c.toNat && c.toNat ≤ 122

/-- Alphanumeric test: the character class 0-9A-Za-z (the complement of the
source's NON_ALPHANUM regular expression from src/utils.ts). -/
def isAlnumB (c : Char) : Bool := isDigitB c || isUpperB c || isLowerB c

/-- Characters that are digits or uppercase letters: the alphabet of a
normalized (electronic-format) IBAN after uppercasing. -/
def isAlnumUpperB (c : Char) : Bool := isDigitB c || isUpperB c

/-- Per-character model of JavaScript String.prototype.toUpperCase.  The
library only ever uppercases ASCII alphanumeric data (electronicFormat
filters everything else out first), where toUpperCase maps a-z to A-Z and
leaves every other character unchanged. -/
def jsToUpper (c : Char) : Char :=
  if 97 ≤ c.toNat && c.toNat ≤ 122 then Char.ofNat (c.toNat - 32) else c

/-- Numeric value of a decimal digit character. -/
def digitVal (c : Char) : Nat := c.toNat - 48

/-- Model of Number.parseInt(s, 10) on an all-digit string: the usual
left fold.  The library only applies parseInt to all-digit strings (the
theorems below establish digit-ness at every call site). -/
def digitsToNat (s : List Char) : Nat :=
  s.foldl (fun a c => a * 10 + digitVal c) 0

/-- Model of JavaScript number-to-string conversion (template literal
interpolation) for the naturals.  The two explicit branches cover every
value the library ever converts (all are below 100); the final branch
delegates to Nat.toDigits for totality on larger inputs. -/
def jsNumToString (n : Nat) : List Char :=
  if n < 10 then [Nat.digitChar n]
  else if n < 100 then [Nat.digitChar (n / 10), Nat.digitChar (n % 10)]
  else Nat.toDigits 10 n

/-- Model of the JavaScript idiom (the zero-padded check code of
Specification.fromBBAN): prepend a 0 to the decimal representation and
keep the last two characters. -/
def pad2JS (n : Nat) : List Char :=
  let t := '0' :: jsNumToString n
  t.drop (t.length - 2)

/-- Character classes of the structure descriptors (parseStructure's
switch).  The code letters A, B, C, F, L, U, W map to the first seven
constructors; any other letter leaves the JavaScript variable format
undefined, so the produced regular expression block is the literal
character class containing the letters of the string undefined: that
behaviour is the last constructor. -/
inductive CharSet
  | anyAlnum
  | digitsUpper
  | lettersAny
  | digitsOnly
  | lowerOnly
  | upperOnly
  | digitsLower
  | undefinedSet
deriving DecidableEq

/-- Membership in the character class a CharSet denotes. -/
def CharSet.mem : CharSet → Char → Bool
  | .anyAlnum, c => isDigitB c || isUpperB c || isLowerB c
  | .digitsUpper, c => isDigitB c || isUpperB c
  | .lettersAny, c => isUpperB c || isLowerB c
  | .digitsOnly, c => isDigitB c
  | .lowerOnly, c => isLowerB c
  | .upperOnly, c => isUpperB c
  | .digitsLower, c => isDigitB c || isLowerB c
  | .undefinedSet, c =>
      c = 'u' || c = 'n' || c = 'd' || c = 'e' || c = 'f' || c = 'i'

/-- One block of a compiled matcher: a character class and the exact
number of characters it must match (the regular-expression fragment
produced for one 3-character descriptor block). -/
structure Segment where
  cls : CharSet
  len : Nat
deriving DecidableEq

/-- The source's structure.match with the regular expression of three
arbitrary characters and the g flag: the list of consecutive complete
3-character blocks, any trailing remainder of fewer than 3 characters
being dropped. -/
def chunks3 : List Char → List (List Char)
  | a :: b :: c :: rest => [a, b, c] :: chunks3 rest
  | _ => []

/-- The class-code table of parseStructure's switch statement. -/
def classOfCode (c : Char) : CharSet :=
  if c = 'A' then .anyAlnum
  else if c = 'B' then .digitsUpper
  else if c = 'C' then .lettersAny
  else if c = 'F' then .digitsOnly
  else if c = 'L' then .lowerOnly
  else if c = 'U' then .upperOnly
  else if c = 'W' then .digitsLower
  else .undefinedSet

/-- Parse one 3-character descriptor block: the leading class code and the
2-digit repeat count. -/
def parseBlock (block : List Char) : Segment :=
  ⟨classOfCode (block.headD ' '), digitsToNat (block.drop 1)⟩

/-- The source's parseStructure: split the descriptor into 3-character
blocks and compile each to a matcher segment.  structure.match returns
null exactly when there is no complete 3-character block, in which case
the function throws; otherwise the anchored regular expression built from
the blocks is returned (here: the segment list). -/
def parseStructure (struct : List Char) : Except (List Char) (List Segment) :=
  let blocks := chunks3 struct
  if blocks.isEmpty then
    Except.error ("Something went wrong while parsing the structure".toList)
  else
    Except.ok (blocks.map parseBlock)

/-- The test of the anchored regular expression built by parseStructure:
each segment must match exactly its declared number of characters, with
nothing left over at the end.  Every group has a fixed width, so the
regular expression is equivalent to this sequential matcher. -/
def matchSegs : List Segment → List Char → Bool
  | [], s => s.isEmpty
  | seg :: rest, s =>
      decide (seg.len ≤ s.length) && (s.take seg.len).all seg.cls.mem &&
        matchSegs rest (s.drop seg.len)

/-- The exec of the same regular expression: on a match, the list of
captured per-block substrings in descriptor order; otherwise none. -/
def extractSegs : List Segment → List Char → Option (List (List Char))
  | [], s => if s.isEmpty then some [] else none
  | seg :: rest, s =>
      if decide (seg.len ≤ s.length) && (s.take seg.len).all seg.cls.mem then
        (extractSegs rest (s.drop seg.len)).map (fun bs => s.take seg.len :: bs)
      else none

/-- Sum of the block lengths of a compiled matcher. -/
def sumLens (segs : List Segment) : Nat := (segs.map Segment.len).sum

/-- One iteration of iso7064Mod9710's while loop: take the first up-to-9
characters, replace them by the decimal representation of their value
modulo 97, keep the untouched suffix. -/
def mod97Step (s : List Char) : List Char :=
  let block := s.take 9
  jsNumToString (digitsToNat block % 97) ++ s.drop block.length

/-- Fuel-indexed unfolding of the while loop of iso7064Mod9710.  Each
iteration strictly shortens the string (proved below), so fuel equal to
the string length always suffices. -/
def mod97LoopAux : Nat → List Char → List Char
  | 0, s => s
  | fuel + 1, s => if 2 < s.length then mod97LoopAux fuel (mod97Step s) else s

/-- The while loop of iso7064Mod9710: iterate mod97Step until at most two
characters remain. -/
def mod97Loop (s : List Char) : List Char := mod97LoopAux s.length s

/-- The source's iso7064Mod9710: run the streaming reduction, then return
the integer value of the final remainder taken modulo 97. -/
def iso7064Mod9710 (iban : List Char) : Nat := digitsToNat (mod97Loop iban) % 97

/-- The claim's description of iso7064Mod9710, kept for comparison with
the source: identical streaming loop, but the final remainder's integer
value is returned directly, without the closing modulo-97 step that the
source applies. -/
def iso7064Mod9710Claim (iban : List Char) : Nat := digitsToNat (mod97Loop iban)

/-- The letter replacement of iso13616Prepare: an uppercase letter becomes
the decimal representation of its ordinal minus the ordinal of A plus 10
(the source's replaceAll over the class A-Z); every other character is kept. -/
def expandChar (c : Char) : List Char :=
  if isUpperB c then jsNumToString (c.toNat - 65 + 10) else [c]

/-- The full replaceAll of iso13616Prepare. -/
def expandList (s : List Char) : List Char := s.flatMap expandChar

/-- The source's iso13616Prepare: uppercase, move the first 4 characters
to the end, replace the letters by their numeric values. -/
def iso13616Prepare (iban : List Char) : List Char :=
  let val := iban.map jsToUpper
  expandList (val.drop 4 ++ val.take 4)

/-- The source's electronicFormat: strip every character outside
0-9A-Za-z (replaceAll with NON_ALPHANUM), then uppercase. -/
def electronicFormat (iban : List Char) : List Char :=
  (iban.filter isAlnumB).map jsToUpper

/-- The grouping performed by printFormat's regular expression
EVERY_FOUR_CHARS: consecutive groups of 4 characters, a final group of
fewer than 4 kept as is. -/
def chunks4 : List Char → List (List Char)
  | a :: b :: c :: d :: rest => [a, b, c, d] :: chunks4 rest
  | [] => []
  | rest => [rest]

/-- JavaScript Array.prototype.join with a separator. -/
def joinSep (sep : List Char) : List (List Char) → List Char
  | [] => []
  | [b] => b
  | b :: bs => b ++ sep ++ joinSep sep bs

/-- The source's printFormat: normalize, then insert the separator after
every complete group of 4 characters that is not at the end of the string
(the negative lookahead of EVERY_FOUR_CHARS). -/
def printFormat (iban sep : List Char) : List Char :=
  joinSep sep (chunks4 (electronicFormat iban))

/-- The Specification class: a country code, the declared total IBAN
length, the BBAN structure descriptor, and the example IBAN.  The field
named structure in the source is called struct here (structure is a Lean
keyword), and example is called exampleIban. -/
structure Specification where
  countryCode : List Char
  length : Nat
  struct : List Char
  exampleIban : List Char
deriving DecidableEq

/-- Specification.isValid.  The conjuncts appear in source order; the
regular expression is compiled (and can therefore throw a configuration
error) only after the length and country-code comparisons succeed, which
the nesting reproduces. -/
def Specification.isValid (spec : Specification) (iban : List Char) :
    Except (List Char) Bool :=
  if spec.length = iban.length then
    if spec.countryCode = iban.take 2 then
      match parseStructure spec.struct with
      | Except.error e => Except.error e
      | Except.ok segs =>
          Except.ok (matchSegs segs (iban.drop 4) &&
            (iso7064Mod9710 (iso13616Prepare iban) == 1))
    else Except.ok false
  else Except.ok false

/-- Specification.toBBAN: run the compiled matcher on the portion of the
IBAN from offset 4; throw Invalid IBAN when it does not match, otherwise
join the captured groups with the separator. -/
def Specification.toBBAN (spec : Specification) (iban sep : List Char) :
    Except (List Char) (List Char) :=
  match parseStructure spec.struct with
  | Except.error e => Except.error e
  | Except.ok segs =>
      match extractSegs segs (iban.drop 4) with
      | none => Except.error ("Invalid IBAN".toList)
      | some blocks => Except.ok (joinSep sep blocks)

/-- Specification.isValidBBAN: the length comparison short-circuits, so
the regular expression is compiled only when the length matches. -/
def Specification.isValidBBAN (spec : Specification) (bban : List Char) :
    Except (List Char) Bool :=
  if spec.length - 4 = bban.length then
    match parseStructure spec.struct with
    | Except.error e => Except.error e
    | Except.ok segs => Except.ok (matchSegs segs bban)
  else Except.ok false

/-- Specification.fromBBAN: reject an invalid BBAN, otherwise compute the
MOD 97-10 remainder of the prepared string with check digits 00, subtract
it from 98, zero-pad to two characters and assemble the IBAN. -/
def Specification.fromBBAN (spec : Specification) (bban : List Char) :
    Except (List Char) (List Char) :=
  match spec.isValidBBAN bban with
  | Except.error e => Except.error e
  | Except.ok false => Except.error ("Invalid BBAN".toList)
  | Except.ok true =>
      let remainder :=
        iso7064Mod9710 (iso13616Prepare (spec.countryCode ++ ['0', '0'] ++ bban))
      Except.ok (spec.countryCode ++ pad2JS (98 - remainder) ++ bban)

/-- Helper to transcribe one entry of the COUNTRIES table: the object key
and the Specification constructed for it (the key always equals the
specification's country code in the source table). -/
def entry (cc : String) (len : Nat) (struct exampleIban : String) :
    List Char × Specification :=
  (cc.toList, ⟨cc.toList, len, struct.toList, exampleIban.toList⟩)

/-- The COUNTRIES table from src/countries.ts, in source order. -/
def COUNTRIES : List (List Char × Specification) :=
  [ entry "AD" 24 "F04F04A12" "AD1200012030200359100100"
  , entry "AE" 23 "F03F16" "AE070331234567890123456"
  , entry "AL" 28 "F08A16" "AL47212110090000000235698741"
  , entry "AT" 20 "F05F11" "AT611904300234573201"
  , entry "AZ" 28 "U04A20" "AZ21NABZ00000000137010001944"
  , entry "BA" 20 "F03F03F08F02" "BA391290079401028494"
  , entry "BE" 16 "F03F07F02" "BE68539007547034"
  , entry "BG" 22 "U04F04F02A08" "BG80BNBG96611020345678"
  , entry "BH" 22 "U04A14" "BH67BMAG00001299123456"
  , entry "BR" 29 "F08F05F10U01A01" "BR9700360305000010009795493P1"
  , entry "BY" 28 "A04F04A16" "BY13NBRB3600900000002Z00AB00"
  , entry "CH" 21 "F05A12" "CH9300762011623852957"
  , entry "CR" 22 "F04F14" "CR72012300000171549015"
  , entry "CY" 28 "F03F05A16" "CY17002001280000001200527600"
  , entry "CZ" 24 "F04F06F10" "CZ6508000000192000145399"
  , entry "DE" 22 "F08F10" "DE89370400440532013000"
  , entry "DK" 18 "F04F09F01" "DK5000400440116243"
  , entry "DO" 28 "U04F20" "DO28BAGR00000001212453611324"
  , entry "EE" 20 "F02F02F11F01" "EE382200221020145685"
  , entry "EG" 29 "F04F04F17" "EG800002000156789012345180002"
  , entry "ES" 24 "F04F04F01F01F10" "ES9121000418450200051332"
  , entry "FI" 18 "F06F07F01" "FI2112345600000785"
  , entry "FO" 18 "F04F09F01" "FO6264600001631634"
  , entry "FR" 27 "F05F05A11F02" "FR1420041010050500013M02606"
  , entry "GB" 22 "U04F06F08" "GB29NWBK60161331926819"
  , entry "GE" 22 "U02F16" "GE29NB0000000101904917"
  , entry "GI" 23 "U04A15" "GI75NWBK000000007099453"
  , entry "GL" 18 "F04F09F01" "GL8964710001000206"
  , entry "GR" 27 "F03F04A16" "GR1601101250000000012300695"
  , entry "GT" 28 "A04A20" "GT82TRAJ01020000001210029690"
  , entry "HR" 21 "F07F10" "HR1210010051863000160"
  , entry "HU" 28 "F03F04F01F15F01" "HU42117730161111101800000000"
  , entry "IE" 22 "U04F06F08" "IE29AIBK93115212345678"
  , entry "IL" 23 "F03F03F13" "IL620108000000099999999"
  , entry "IS" 26 "F04F02F06F10" "IS140159260076545510730339"
  , entry "IT" 27 "U01F05F05A12" "IT60X0542811101000000123456"
  , entry "IQ" 23 "U04F03A12" "IQ98NBIQ850123456789012"
  , entry "JO" 30 "A04F22" "JO15AAAA1234567890123456789012"
  , entry "KW" 30 "U04A22" "KW81CBKU0000000000001234560101"
  , entry "KZ" 20 "F03A13" "KZ86125KZT5004100100"
  , entry "LB" 28 "F04A20" "LB62099900000001001901229114"
  , entry "LC" 32 "U04F24" "LC07HEMM000100010012001200013015"
  , entry "LI" 21 "F05A12" "LI21088100002324013AA"
  , entry "LT" 20 "F05F11" "LT121000011101001000"
  , entry "LU" 20 "F03A13" "LU280019400644750000"
  , entry "MC" 27 "F05F05A11F02" "MC5811222000010123456789030"
  , entry "MD" 24 "U02A18" "MD24AG000225100013104168"
  , entry "ME" 22 "F03F13F02" "ME25505000012345678951"
  , entry "MK" 19 "F03A10F02" "MK07250120000058984"
  , entry "MR" 27 "F05F05F11F02" "MR1300020001010000123456753"
  , entry "MT" 31 "U04F05A18" "MT84MALT011000012345MTLCAST001S"
  , entry "MU" 30 "U04F02F02F12F03U03" "MU17BOMM0101101030300200000MUR"
  , entry "NL" 18 "U04F10" "NL91ABNA0417164300"
  , entry "NO" 15 "F04F06F01" "NO9386011117947"
  , entry "PK" 24 "U04A16" "PK36SCBL0000001123456702"
  , entry "PL" 28 "F08F16" "PL61109010140000071219812874"
  , entry "PS" 29 "U04A21" "PS92PALS000000000400123456702"
  , entry "PT" 25 "F04F04F11F02" "PT50000201231234567890154"
  , entry "QA" 29 "U04A21" "QA30AAAA123456789012345678901"
  , entry "RO" 24 "U04A16" "RO49AAAA1B31007593840000"
  , entry "RS" 22 "F03F13F02" "RS35260005601001611379"
  , entry "SA" 24 "F02A18" "SA0380000000608010167519"
  , entry "SC" 31 "U04F04F16U03" "SC18SSCB11010000000000001497USD"
  , entry "SE" 24 "F03F16F01" "SE4550000000058398257466"
  , entry "SI" 19 "F05F08F02" "SI56263300012039086"
  , entry "SK" 24 "F04F06F10" "SK3112000000198742637541"
  , entry "SM" 27 "U01F05F05A12" "SM86U0322509800000000270100"
  , entry "ST" 25 "F08F11F02" "ST68000100010051845310112"
  , entry "SV" 28 "U04F20" "SV62CENR00000000000000700025"
  , entry "TL" 23 "F03F14F02" "TL380080012345678910157"
  , entry "TN" 24 "F02F03F13F02" "TN5910006035183598478831"
  , entry "TR" 26 "F05F01A16" "TR330006100519786457841326"
  , entry "UA" 29 "F25" "UA511234567890123456789012345"
  , entry "VA" 22 "F18" "VA59001123000012345678"
  , entry "VG" 24 "U04F16" "VG96VPVG0000012345678901"
  , entry "XK" 20 "F04F10F02" "XK051212012345678906"
  , entry "AO" 25 "F21" "AO69123456789012345678901"
  , entry "BF" 27 "F23" "BF2312345678901234567890123"
  , entry "BI" 16 "F12" "BI41123456789012"
  , entry "BJ" 28 "F24" "BJ39123456789012345678901234"
  , entry "CI" 28 "U02F22" "CI70CI1234567890123456789012"
  , entry "CM" 27 "F23" "CM9012345678901234567890123"
  , entry "CV" 25 "F21" "CV30123456789012345678901"
  , entry "DZ" 24 "F20" "DZ8612345678901234567890"
  , entry "IR" 26 "F22" "IR861234568790123456789012"
  , entry "MG" 27 "F23" "MG1812345678901234567890123"
  , entry "ML" 28 "U01F23" "ML15A12345678901234567890123"
  , entry "MZ" 25 "F21" "MZ25123456789012345678901"
  , entry "SN" 28 "U01F23" "SN52A12345678901234567890123"
  , entry "GF" 27 "F05F05A11F02" "GF121234512345123456789AB13"
  , entry "GP" 27 "F05F05A11F02" "GP791234512345123456789AB13"
  , entry "MQ" 27 "F05F05A11F02" "MQ221234512345123456789AB13"
  , entry "RE" 27 "F05F05A11F02" "RE131234512345123456789AB13"
  , entry "PF" 27 "F05F05A11F02" "PF281234512345123456789AB13"
  , entry "TF" 27 "F05F05A11F02" "TF891234512345123456789AB13"
  , entry "YT" 27 "F05F05A11F02" "YT021234512345123456789AB13"
  , entry "NC" 27 "F05F05A11F02" "NC551234512345123456789AB13"
  , entry "BL" 27 "F05F05A11F02" "BL391234512345123456789AB13"
  , entry "MF" 27 "F05F05A11F02" "MF551234512345123456789AB13"
  , entry "PM" 27 "F05F05A11F02" "PM071234512345123456789AB13"
  , entry "WF" 27 "F05F05A11F02" "WF621234512345123456789AB13"
  ]

/-- The source's getCountry: object-key lookup in COUNTRIES, throwing for
an unknown code. -/
def getCountry (countryCode : List Char) : Except (List Char) Specification :=
  match COUNTRIES.find? (fun p => p.1 == countryCode) with
  | some p => Except.ok p.2
  | none => Except.error ("No country with code ".toList ++ countryCode)

/-- A JavaScript value passed where the API expects a string: either an
actual string or a value of any other type (number, array, object,
boolean, ...), which is all the isString guard distinguishes. -/
inductive JSVal
  | str (s : List Char)
  | other

/-- The raisable pipeline inside the top-level isValid's try block:
normalize, look the country up, delegate to Specification.isValid. -/
def isValidInner (iban : List Char) : Except (List Char) Bool :=
  let ibanFormatted := electronicFormat iban
  match getCountry (ibanFormatted.take 2) with
  | Except.error e => Except.error e
  | Except.ok spec => spec.isValid ibanFormatted

/-- The top-level isValid from src/index.ts: false for a non-string, and
every error of the inner pipeline is caught and collapsed to false. -/
def isValid (v : JSVal) : Bool :=
  match v with
  | JSVal.other => false
  | JSVal.str s =>
      match isValidInner s with
      | Except.error _ => false
      | Except.ok b => b

/-- The top-level toBBAN from src/index.ts: normalize, look the country
up (no catch), delegate to Specification.toBBAN. -/
def toBBAN (iban sep : List Char) : Except (List Char) (List Char) :=
  let ibanFormatted := electronicFormat iban
  match getCountry (ibanFormatted.take 2) with
  | Except.error e => Except.error e
  | Except.ok spec => spec.toBBAN ibanFormatted sep

/-- The top-level fromBBAN from src/index.ts: look the country up (no
catch), normalize the BBAN, delegate to Specification.fromBBAN. -/
def fromBBAN (countryCode bban : List Char) : Except (List Char) (List Char) :=
  match getCountry countryCode with
  | Except.error e => Except.error e
  | Except.ok spec => spec.fromBBAN (electronicFormat bban)

/-- The top-level isValidBBAN from src/index.ts: false for a non-string
BBAN, but the getCountry lookup is NOT wrapped in a try block, so an
unknown country code propagates as an error. -/
def isValidBBAN (countryCode : List Char) (v : JSVal) :
    Except (List Char) Bool :=
  match v with
  | JSVal.other => Except.ok false
  | JSVal.str bban =>
      match getCountry countryCode with
      | Except.error e => Except.error e
      | Except.ok spec => spec.isValidBBAN (electronicFormat bban)

/-- The Belgian specification, used as the concrete instance in several
witnesses below. -/
def specBE : Specification :=
  ⟨"BE".toList, 16, "F03F07F02".toList, "BE68539007547034".toList⟩

/-- The compiled matcher of the Belgian structure descriptor F03F07F02. -/
def segsBE : List Segment :=
  [⟨CharSet.digitsOnly, 3⟩, ⟨CharSet.digitsOnly, 7⟩, ⟨CharSet.digitsOnly, 2⟩]

/-- The Belgian example IBAN in electronic format. -/
def ibanBE : List Char := "BE68539007547034".toList

/-- The BBAN portion of the Belgian example IBAN. -/
def bbanBE : List Char := "539007547034".toList

/-- The per-block substrings the Belgian matcher extracts from the
example BBAN. -/
def blocksBE : List (List Char) := ["539".toList, "0075470".toList, "34".toList]

/-- A 16-character string that Specification.isValid accepts for Belgium
although its check digits are the degenerate pair 00: the value of its
ISO 13616 preparation is 2111400 = 97 * 21767 + 1, so the MOD 97-10
reduction is 1. -/
def ibanBEZero : List Char := "BE00000000000002".toList

/-! Basic facts about characters and digit strings. -/

theorem charToNat_inj {a b : Char} (h : a.toNat = b.toNat) : a = b :=
  Char.ext (UInt32.ext h)

theorem toNat_ofNat_lt {n : Nat} (h : n < 55296) : (Char.ofNat n).toNat = n := by
  have hv : n.isValidChar := Or.inl h
  simp [Char.ofNat, hv, Char.ofNatAux, Char.toNat, UInt32.toNat]

theorem digitChar_toNat : ∀ d, d < 10 → (Nat.digitChar d).toNat = 48 + d := by
  decide

theorem digitChar_isDigit : ∀ d, d < 10 → isDigitB (Nat.digitChar d) = true := by
  decide

theorem digitVal_digitChar (d : Nat) (h : d < 10) :
    digitVal (Nat.digitChar d) = d := by
  simp [digitVal, digitChar_toNat d h]

theorem digitChar_of_isDigit {c : Char} (h : isDigitB c = true) :
    Nat.digitChar (digitVal c) = c := by
  simp only [isDigitB, Bool.and_eq_true, decide_eq_true_eq] at h
  apply charToNat_inj
  rw [digitChar_toNat (digitVal c) (by simp [digitVal]; omega)]
  simp [digitVal]
  omega

theorem isDigit_not_lower {c : Char} (h : isDigitB c = true) :
    (97 ≤ c.toNat && c.toNat ≤ 122) = false := by
  simp only [isDigitB, Bool.and_eq_true, decide_eq_true_eq] at h
  simp only [Bool.and_eq_false_iff, decide_eq_false_iff_not]
  omega

theorem jsToUpper_digit {c : Char} (h : isDigitB c = true) : jsToUpper c = c := by
  simp [jsToUpper, isDigit_not_lower h]

theorem jsToUpper_upper {c : Char} (h : isUpperB c = true) : jsToUpper c = c := by
  simp only [isUpperB, Bool.and_eq_true, decide_eq_true_eq] at h
  have : (97 ≤ c.toNat && c.toNat ≤ 122) = false := by
    simp only [Bool.and_eq_false_iff, decide_eq_false_iff_not]
    omega
  simp [jsToUpper, this]

theorem jsToUpper_lower {c : Char} (h : isLowerB c = true) :
    (jsToUpper c).toNat = c.toNat - 32 := by
  simp only [isLowerB, Bool.and_eq_true, decide_eq_true_eq] at h
  have hc : (97 ≤ c.toNat && c.toNat ≤ 122) = true := by
    simp only [Bool.and_eq_true, decide_eq_true_eq]
    omega
  simp only [jsToUpper, hc, if_true]
  exact toNat_ofNat_lt (by omega)

theorem isUpper_jsToUpper_lower {c : Char} (h : isLowerB c = true) :
    isUpperB (jsToUpper c) = true := by
  have h2 := jsToUpper_lower h
  simp only [isLowerB, Bool.and_eq_true, decide_eq_true_eq] at h
  simp only [isUpperB, Bool.and_eq_true, decide_eq_true_eq, h2]
  omega

theorem jsToUpper_alnum {c : Char} (h : isAlnumB c = true) :
    isAlnumUpperB (jsToUpper c) = true := by
  simp only [isAlnumB, Bool.or_eq_true] at h
  rcases h with (h | h) | h
  · simp [isAlnumUpperB, jsToUpper_digit h, h]
  · simp [isAlnumUpperB, jsToUpper_upper h, h]
  · simp [isAlnumUpperB, isUpper_jsToUpper_lower h]

theorem alnumUpper_alnum {c : Char} (h : isAlnumUpperB c = true) :
    isAlnumB c = true := by
  simp only [isAlnumUpperB, Bool.or_eq_true] at h
  simp only [isAlnumB, Bool.or_eq_true]
  tauto

theorem jsToUpper_alnumUpper {c : Char} (h : isAlnumUpperB c = true) :
    jsToUpper c = c := by
  simp only [isAlnumUpperB, Bool.or_eq_true] at h
  rcases h with h | h
  · exact jsToUpper_digit h
  · exact jsToUpper_upper h

theorem jsToUpper_idem {c : Char} (h : isAlnumB c = true) :
    jsToUpper (jsToUpper c) = jsToUpper c :=
  jsToUpper_alnumUpper (jsToUpper_alnum h)

/-! Facts about digitsToNat and jsNumToString. -/

theorem digitsToNat_go (s : List Char) :
    ∀ v : Nat, s.foldl (fun a c => a * 10 + digitVal c) v =
      v * 10 ^ s.length + digitsToNat s := by
  induction s with
  | nil => intro v; simp [digitsToNat]
  | cons c cs ih =>
      intro v
      simp only [List.foldl_cons, List.length_cons, digitsToNat]
      rw [ih (v * 10 + digitVal c), ih (0 * 10 + digitVal c)]
      ring

theorem digitsToNat_append (a b : List Char) :
    digitsToNat (a ++ b) = digitsToNat a * 10 ^ b.length + digitsToNat b := by
  simp only [digitsToNat, List.foldl_append]
  rw [digitsToNat_go b (List.foldl (fun a c => a * 10 + digitVal c) 0 a)]
  rfl

theorem digitsToNat_two (d e : Char) :
    digitsToNat [d, e] = 10 * digitVal d + digitVal e := by
  simp [digitsToNat]
  ring

theorem digitsToNat_jsNum {n : Nat} (h : n < 100) :
    digitsToNat (jsNumToString n) = n := by
  by_cases h10 : n < 10
  · simp [jsNumToString, h10, digitsToNat, digitVal_digitChar n h10]
  · simp only [jsNumToString, h10, if_false, h, if_true]
    rw [digitsToNat_two]
    rw [digitVal_digitChar (n / 10) (by omega), digitVal_digitChar (n % 10) (by omega)]
    omega

theorem jsNum_length {n : Nat} (h : n < 100) :
    (jsNumToString n).length = if n < 10 then 1 else 2 := by
  by_cases h10 : n < 10 <;> simp [jsNumToString, h10, h]

theorem jsNum_length_le {n : Nat} (h : n < 100) : (jsNumToString n).length ≤ 2 := by
  rw [jsNum_length h]
  split <;> omega

theorem jsNum_digits {n : Nat} (h : n < 100) :
    (jsNumToString n).all isDigitB = true := by
  by_cases h10 : n < 10
  · simp [jsNumToString, h10, digitChar_isDigit n h10]
  · simp [jsNumToString, h10, h, digitChar_isDigit (n / 10) (by omega),
      digitChar_isDigit (n % 10) (by omega)]

/-! The while loop of iso7064Mod9710: termination measure and unfolding. -/

theorem drop_take_length (s : List Char) (n : Nat) :
    s.drop (s.take n).length = s.drop n := by
  rw [List.length_take]
  rcases Nat.le_total n s.length with h | h
  · rw [Nat.min_eq_left h]
  · rw [Nat.min_eq_right h, List.drop_eq_nil_of_le (le_refl _),
      List.drop_eq_nil_of_le h]

theorem mod97Step_length {s : List Char} (h : 2 < s.length) :
    (mod97Step s).length < s.length := by
  simp only [mod97Step, List.length_append, List.length_drop, List.length_take]
  have h1 : digitsToNat (s.take 9) % 97 < 100 := by
    have := Nat.mod_lt (digitsToNat (s.take 9)) (by omega : 0 < 97)
    omega
  have h2 := jsNum_length_le h1
  omega

theorem mod97LoopAux_small {s : List Char} (h : s.length ≤ 2) :
    ∀ fuel, mod97LoopAux fuel s = s := by
  intro fuel
  cases fuel with
  | zero => rfl
  | succ f => simp [mod97LoopAux, Nat.not_lt.mpr h]

theorem mod97LoopAux_succ :
    ∀ fuel (s : List Char), s.length ≤ fuel →
      mod97LoopAux (fuel + 1) s = mod97LoopAux fuel s := by
  intro fuel
  induction fuel with
  | zero =>
      intro s h
      have : s.length ≤ 2 := by omega
      rw [mod97LoopAux_small this, mod97LoopAux_small this]
  | succ f ih =>
      intro s h
      by_cases h2 : 2 < s.length
      · have hs : (mod97Step s).length ≤ f := by
          have := mod97Step_length h2
          omega
        simp only [mod97LoopAux, h2, if_true]
        exact ih (mod97Step s) hs
      · push_neg at h2
        rw [mod97LoopAux_small h2, mod97LoopAux_small h2]

theorem mod97LoopAux_add :
    ∀ k fuel (s : List Char), s.length ≤ fuel →
      mod97LoopAux (fuel + k) s = mod97LoopAux fuel s := by
  intro k
  induction k with
  | zero => intro fuel s _; rfl
  | succ n ih =>
      intro fuel s h
      have : fuel + (n + 1) = (fuel + n) + 1 := by omega
      rw [this, mod97LoopAux_succ (fuel + n) s (by omega), ih fuel s h]

theorem mod97LoopAux_congr {f1 f2 : Nat} {s : List Char}
    (h1 : s.length ≤ f1) (h2 : s.length ≤ f2) :
    mod97LoopAux f1 s = mod97LoopAux f2 s := by
  have e1 : f1 = s.length + (f1 - s.length) := by omega
  have e2 : f2 = s.length + (f2 - s.length) := by omega
  rw [e1, e2, mod97LoopAux_add _ _ _ (le_refl _), mod97LoopAux_add _ _ _ (le_refl _)]

theorem mod97Loop_eq (s : List Char) :
    mod97Loop s = if 2 < s.length then mod97Loop (mod97Step s) else s := by
  by_cases h : 2 < s.length
  · simp only [h, if_true, mod97Loop]
    have e : s.length = (s.length - 1) + 1 := by omega
    rw [e]
    simp only [mod97LoopAux, h, if_true]
    exact mod97LoopAux_congr (by have := mod97Step_length h; omega) (le_refl _)
  · push_neg at h
    simp only [Nat.not_lt.mpr h, if_false, mod97Loop, mod97LoopAux_small h]

theorem mod97Step_mod (s : List Char) :
    digitsToNat (mod97Step s) % 97 = digitsToNat s % 97 := by
  have hsplit : s = s.take 9 ++ s.drop 9 := (List.take_append_drop 9 s).symm
  have hr : digitsToNat (s.take 9) % 97 < 100 := by
    have := Nat.mod_lt (digitsToNat (s.take 9)) (by omega : 0 < 97)
    omega
  conv_rhs => rw [hsplit]
  simp only [mod97Step, drop_take_length]
  rw [digitsToNat_append, digitsToNat_append, digitsToNat_jsNum hr]
  have hmod := Nat.div_add_mod (digitsToNat (s.take 9)) 97
  set q := digitsToNat (s.take 9) / 97
  set r := digitsToNat (s.take 9) % 97
  set k := 10 ^ (s.drop 9).length
  set d := digitsToNat (s.drop 9)
  have he : digitsToNat (s.take 9) * k + d = r * k + d + 97 * (q * k) := by
    rw [← hmod]
    ring
  rw [he, Nat.add_mul_mod_self_left]

theorem mod97Loop_mod :
    ∀ fuel (s : List Char), s.length ≤ fuel →
      digitsToNat (mod97Loop s) % 97 = digitsToNat s % 97 := by
  intro fuel
  induction fuel with
  | zero =>
      intro s h
      have : s.length ≤ 2 := by omega
      rw [mod97Loop_eq, if_neg (by omega)]
  | succ f ih =>
      intro s h
      rw [mod97Loop_eq]
      by_cases h2 : 2 < s.length
      · rw [if_pos h2, ih (mod97Step s) (by have := mod97Step_length h2; omega),
          mod97Step_mod]
      · rw [if_neg h2]

/-- Central value theorem for the streaming reduction: the source's
iso7064Mod9710 computes the integer value of its input modulo 97. -/
theorem iso7064_eq_mod (s : List Char) :
    iso7064Mod9710 s = digitsToNat s % 97 := by
  exact mod97Loop_mod s.length s (le_refl _)

theorem mod97Loop_length (s : List Char) : (mod97Loop s).length ≤ 2 := by
  suffices h : ∀ fuel (s : List Char), s.length ≤ fuel → (mod97Loop s).length ≤ 2 by
    exact h s.length s (le_refl _)
  intro fuel
  induction fuel with
  | zero =>
      intro s h
      rw [mod97Loop_eq, if_neg (by omega)]
      omega
  | succ f ih =>
      intro s h
      rw [mod97Loop_eq]
      by_cases h2 : 2 < s.length
      · rw [if_pos h2]
        exact ih (mod97Step s) (by have := mod97Step_length h2; omega)
      · rw [if_neg h2]
        omega

/-! Facts about the compiled matcher. -/

theorem matchSegs_length :
    ∀ (segs : List Segment) (s : List Char),
      matchSegs segs s = true → s.length = sumLens segs := by
  intro segs
  induction segs with
  | nil =>
      intro s h
      simp only [matchSegs, List.isEmpty_iff] at h
      simp [h, sumLens]
  | cons seg rest ih =>
      intro s h
      simp only [matchSegs, Bool.and_eq_true, decide_eq_true_eq] at h
      obtain ⟨⟨hle, _⟩, hrest⟩ := h
      have := ih (s.drop seg.len) hrest
      simp only [List.length_drop] at this
      simp only [sumLens, List.map_cons, List.sum_cons]
      simp only [sumLens] at this
      omega

theorem extractSegs_isSome_iff :
    ∀ (segs : List Segment) (s : List Char),
      (extractSegs segs s).isSome = matchSegs segs s := by
  intro segs
  induction segs with
  | nil =>
      intro s
      simp only [extractSegs, matchSegs]
      by_cases h : s.isEmpty <;> simp [h]
  | cons seg rest ih =>
      intro s
      simp only [extractSegs, matchSegs]
      by_cases h : (decide (seg.len ≤ s.length) && (s.take seg.len).all seg.cls.mem) = true
      · simp [h, ih (s.drop seg.len)]
      · simp only [Bool.not_eq_true] at h
        simp [h]

theorem matchSegs_alnum_class :
    ∀ (cs : CharSet) (c : Char), cs.mem c = true → isAlnumB c = true := by
  intro cs c h
  cases cs <;> simp only [CharSet.mem, Bool.or_eq_true] at h <;>
    simp only [isAlnumB, Bool.or_eq_true]
  · tauto
  · tauto
  · tauto
  · tauto
  · tauto
  · tauto
  · tauto
  · simp only [decide_eq_true_eq] at h
    rcases h with ((((h | h) | h) | h) | h) | h <;> subst h <;> decide

theorem matchSegs_alnum :
    ∀ (segs : List Segment) (s : List Char),
      matchSegs segs s = true → s.all isAlnumB = true := by
  intro segs
  induction segs with
  | nil =>
      intro s h
      simp only [matchSegs, List.isEmpty_iff] at h
      simp [h]
  | cons seg rest ih =>
      intro s h
      simp only [matchSegs, Bool.and_eq_true, decide_eq_true_eq] at h
      obtain ⟨⟨hle, hall⟩, hrest⟩ := h
      have h2 := ih (s.drop seg.len) hrest
      rw [← List.take_append_drop seg.len s, List.all_append]
      simp only [Bool.and_eq_true]
      constructor
      · rw [List.all_eq_true] at hall ⊢
        intro c hc
        exact matchSegs_alnum_class seg.cls c (hall c hc)
      · exact h2

/-! Facts about the ISO 13616 letter expansion. -/

theorem expandChar_digit {c : Char} (h : isDigitB c = true) :
    expandChar c = [c] := by
  have : isUpperB c = false := by
    simp only [isDigitB, Bool.and_eq_true, decide_eq_true_eq] at h
    simp only [isUpperB, Bool.and_eq_false_iff, decide_eq_false_iff_not]
    omega
  simp [expandChar, this]

theorem expandChar_upper {c : Char} (h : isUpperB c = true) :
    expandChar c = jsNumToString (c.toNat - 55) := by
  have e : c.toNat - 65 + 10 = c.toNat - 55 := by
    simp only [isUpperB, Bool.and_eq_true, decide_eq_true_eq] at h
    omega
  simp [expandChar, h, e]

theorem expandChar_upper_facts {c : Char} (h : isUpperB c = true) :
    (expandChar c).length = 2 ∧ (expandChar c).all isDigitB = true ∧
      digitsToNat (expandChar c) = c.toNat - 55 := by
  have hb : isUpperB c = true := h
  simp only [isUpperB, Bool.and_eq_true, decide_eq_true_eq] at h
  have hv : c.toNat - 55 < 100 := by omega
  rw [expandChar_upper hb]
  refine ⟨?_, jsNum_digits hv, digitsToNat_jsNum hv⟩
  rw [jsNum_length hv]
  simp only [ite_eq_right_iff]
  omega

theorem expandList_append (a b : List Char) :
    expandList (a ++ b) = expandList a ++ expandList b := by
  simp [expandList]

theorem expandList_digits {s : List Char} (h : s.all isDigitB = true) :
    expandList s = s := by
  induction s with
  | nil => rfl
  | cons c cs ih =>
      simp only [List.all_cons, Bool.and_eq_true] at h
      simp only [expandList, List.flatMap_cons] at *
      rw [expandChar_digit h.1, ih h.2]
      rfl

theorem expandList_all_digits {s : List Char} (h : s.all isAlnumUpperB = true) :
    (expandList s).all isDigitB = true := by
  induction s with
  | nil => rfl
  | cons c cs ih =>
      simp only [List.all_cons, Bool.and_eq_true] at h
      simp only [expandList, List.flatMap_cons, List.all_append, Bool.and_eq_true]
      refine ⟨?_, ih h.2⟩
      have hc := h.1
      simp only [isAlnumUpperB, Bool.or_eq_true] at hc
      rcases hc with hc | hc
      · rw [expandChar_digit hc]
        simp [hc]
      · exact (expandChar_upper_facts hc).2.1

theorem expandList_length {s : List Char} (h : s.all isAlnumUpperB = true) :
    (expandList s).length = s.length + s.countP isUpperB := by
  induction s with
  | nil => rfl
  | cons c cs ih =>
      simp only [List.all_cons, Bool.and_eq_true] at h
      simp only [expandList, List.flatMap_cons, List.length_append, List.length_cons,
        List.countP_cons]
      rw [show cs.flatMap expandChar = expandList cs from rfl, ih h.2]
      have hc := h.1
      simp only [isAlnumUpperB, Bool.or_eq_true] at hc
      rcases hc with hc | hc
      · have hu : isUpperB c = false := by
          simp only [isDigitB, Bool.and_eq_true, decide_eq_true_eq] at hc
          simp only [isUpperB, Bool.and_eq_false_iff, decide_eq_false_iff_not]
          omega
        rw [expandChar_digit hc]
        simp [hu]
        omega
      · rw [(expandChar_upper_facts hc).1]
        simp [hc]
        omega

/-! Facts about iso13616Prepare. -/

theorem list_map_id {α : Type} (s : List α) : s.map (fun a => a) = s := by
  induction s with
  | nil => rfl
  | cons c cs ih => simp [ih]

theorem map_jsToUpper_fixed {s : List Char} (h : s.all isAlnumUpperB = true) :
    s.map jsToUpper = s := by
  rw [List.all_eq_true] at h
  rw [List.map_congr_left (fun a ha => jsToUpper_alnumUpper (h a ha)), list_map_id]

theorem upper_all_alnumUpper {s : List Char} (h : s.all isUpperB = true) :
    s.all isAlnumUpperB = true := by
  rw [List.all_eq_true] at h ⊢
  intro c hc
  simp [isAlnumUpperB, h c hc]

theorem digit_all_alnumUpper {s : List Char} (h : s.all isDigitB = true) :
    s.all isAlnumUpperB = true := by
  rw [List.all_eq_true] at h ⊢
  intro c hc
  simp [isAlnumUpperB, h c hc]

theorem prepare_fixed {s : List Char} (h : s.all isAlnumUpperB = true) :
    iso13616Prepare s = expandList (s.drop 4 ++ s.take 4) := by
  simp only [iso13616Prepare, map_jsToUpper_fixed h]

theorem prepare_split (cc ck bban : List Char)
    (hcc2 : cc.length = 2) (hccU : cc.all isUpperB = true)
    (hck2 : ck.length = 2) (hckD : ck.all isDigitB = true) :
    iso13616Prepare (cc ++ ck ++ bban) =
      expandList (bban.map jsToUpper) ++ expandList cc ++ ck := by
  have h4 : (cc ++ ck).length = 4 := by
    simp [hcc2, hck2]
  have hval : (cc ++ ck ++ bban).map jsToUpper = (cc ++ ck) ++ bban.map jsToUpper := by
    simp only [List.append_assoc, List.map_append]
    rw [map_jsToUpper_fixed (upper_all_alnumUpper hccU),
      map_jsToUpper_fixed (digit_all_alnumUpper hckD)]
  simp only [iso13616Prepare, hval]
  rw [← h4, List.drop_left, List.take_left, expandList_append, expandList_append,
    expandList_digits hckD, List.append_assoc]

theorem prepare_value (cc ck bban : List Char)
    (hcc2 : cc.length = 2) (hccU : cc.all isUpperB = true)
    (hck2 : ck.length = 2) (hckD : ck.all isDigitB = true) :
    iso7064Mod9710 (iso13616Prepare (cc ++ ck ++ bban)) =
      (digitsToNat (expandList (bban.map jsToUpper) ++ expandList cc) * 100 +
        digitsToNat ck) % 97 := by
  rw [iso7064_eq_mod, prepare_split cc ck bban hcc2 hccU hck2 hckD,
    digitsToNat_append, hck2]
  norm_num

/-! Facts about pad2JS. -/

theorem pad2_lt10 {n : Nat} (h : n < 10) : pad2JS n = ['0', Nat.digitChar n] := by
  simp [pad2JS, jsNumToString, h]

theorem pad2_ge10 {n : Nat} (h10 : 10 ≤ n) (h : n < 100) :
    pad2JS n = [Nat.digitChar (n / 10), Nat.digitChar (n % 10)] := by
  simp [pad2JS, jsNumToString, Nat.not_lt.mpr h10, h]

theorem pad2_facts {n : Nat} (h : n < 100) :
    (pad2JS n).length = 2 ∧ (pad2JS n).all isDigitB = true ∧
      digitsToNat (pad2JS n) = n := by
  by_cases h10 : n < 10
  · rw [pad2_lt10 h10]
    refine ⟨rfl, ?_, ?_⟩
    · simp [digitChar_isDigit n h10]
      decide
    · rw [digitsToNat_two, digitVal_digitChar n h10]
      have h0 : digitVal '0' = 0 := rfl
      rw [h0]
      omega
  · rw [pad2_ge10 (by omega) h]
    refine ⟨rfl, ?_, ?_⟩
    · simp [digitChar_isDigit (n / 10) (by omega), digitChar_isDigit (n % 10) (by omega)]
    · rw [digitsToNat_two, digitVal_digitChar (n / 10) (by omega),
        digitVal_digitChar (n % 10) (by omega)]
      omega

theorem pad2_of_digits {d e : Char} (hd : isDigitB d = true) (he : isDigitB e = true) :
    pad2JS (10 * digitVal d + digitVal e) = [d, e] := by
  have hdv : digitVal d < 10 := by
    simp only [isDigitB, Bool.and_eq_true, decide_eq_true_eq] at hd
    simp [digitVal]
    omega
  have hev : digitVal e < 10 := by
    simp only [isDigitB, Bool.and_eq_true, decide_eq_true_eq] at he
    simp [digitVal]
    omega
  by_cases h10 : 10 * digitVal d + digitVal e < 10
  · have hd0 : digitVal d = 0 := by omega
    rw [pad2_lt10 h10]
    have e1 : (10 : Nat) * digitVal d + digitVal e = digitVal e := by omega
    rw [e1, digitChar_of_isDigit he]
    have e2 : d = '0' := by
      have := digitChar_of_isDigit hd
      rw [hd0] at this
      rw [← this]
      rfl
    rw [e2]
  · rw [pad2_ge10 (by omega) (by omega)]
    have e1 : (10 * digitVal d + digitVal e) / 10 = digitVal d := by omega
    have e2 : (10 * digitVal d + digitVal e) % 10 = digitVal e := by omega
    rw [e1, e2, digitChar_of_isDigit hd, digitChar_of_isDigit he]

/-! Facts about electronicFormat. -/

theorem ef_all_alnumUpper (s : List Char) :
    (electronicFormat s).all isAlnumUpperB = true := by
  rw [List.all_eq_true]
  intro c hc
  simp only [electronicFormat, List.mem_map] at hc
  obtain ⟨a, ha, rfl⟩ := hc
  exact jsToUpper_alnum (List.of_mem_filter ha)

theorem ef_fixed {s : List Char} (h : s.all isAlnumUpperB = true) :
    electronicFormat s = s := by
  rw [List.all_eq_true] at h
  have hf : s.filter isAlnumB = s := by
    rw [List.filter_eq_self]
    intro a ha
    exact alnumUpper_alnum (h a ha)
  simp only [electronicFormat, hf]
  rw [List.map_congr_left (fun a ha => jsToUpper_alnumUpper (h a ha)), list_map_id]

theorem ef_idem (s : List Char) :
    electronicFormat (electronicFormat s) = electronicFormat s :=
  ef_fixed (ef_all_alnumUpper s)

theorem ef_append (a b : List Char) :
    electronicFormat (a ++ b) = electronicFormat a ++ electronicFormat b := by
  simp [electronicFormat, List.filter_append]

/-! Facts about chunks4 and joinSep. -/

theorem chunks4_short {rest : List Char}
    (h1 : ∀ (a b c d : Char) (r : List Char), rest = a :: b :: c :: d :: r → False)
    (h2 : rest = [] → False) : chunks4 rest = [rest] := by
  cases rest with
  | nil => exact absurd rfl h2
  | cons x xs =>
      cases xs with
      | nil => rfl
      | cons y ys =>
          cases ys with
          | nil => rfl
          | cons z zs =>
              cases zs with
              | nil => rfl
              | cons w ws => exact (h1 x y z w ws rfl).elim

theorem chunks4_flatten (l : List Char) : (chunks4 l).flatten = l := by
  induction l using chunks4.induct with
  | case1 a b c d rest ih => simp [chunks4, ih]
  | case2 => simp [chunks4]
  | case3 rest h1 h2 =>
      rw [chunks4_short h1 h2]
      simp

theorem chunks4_all {l : List Char} {p : Char → Bool} (h : l.all p = true) :
    (chunks4 l).all (fun b => b.all p) = true := by
  induction l using chunks4.induct with
  | case1 a b c d rest ih =>
      simp only [List.all_cons, Bool.and_eq_true] at h ⊢
      simp only [chunks4, List.all_cons, Bool.and_eq_true]
      obtain ⟨h1, h2, h3, h4, h5⟩ := h
      exact ⟨by simp [h1, h2, h3, h4], ih (by simp [h5])⟩
  | case2 => simp [chunks4]
  | case3 rest h1 h2 =>
      rw [chunks4_short h1 h2]
      simp [h]

theorem ef_joinSep {sep : List Char} (hsep : sep.all (fun c => !isAlnumB c) = true) :
    ∀ bs : List (List Char),
      electronicFormat (joinSep sep bs) = (bs.map electronicFormat).flatten := by
  have hsep2 : electronicFormat sep = [] := by
    simp only [electronicFormat]
    rw [List.all_eq_true] at hsep
    have : sep.filter isAlnumB = [] := by
      rw [List.filter_eq_nil_iff]
      intro a ha
      have := hsep a ha
      simp only [Bool.not_eq_true'] at this
      simp [this]
    rw [this]
    rfl
  intro bs
  induction bs using joinSep.induct sep with
  | case1 => rfl
  | case2 b => simp [joinSep]
  | case3 b bs h ih =>
      have hb : joinSep sep (b :: bs) = b ++ sep ++ joinSep sep bs := by
        cases bs with
        | nil => exact absurd rfl h
        | cons x xs => rfl
      rw [hb, ef_append, ef_append, hsep2, ih]
      simp

/-! Unfolding lemmas for the Specification operations. -/

theorem isValid_eq (spec : Specification) (segs : List Segment) (iban : List Char)
    (hp : parseStructure spec.struct = Except.ok segs) :
    spec.isValid iban = Except.ok
      (decide (spec.length = iban.length) && decide (spec.countryCode = iban.take 2) &&
        matchSegs segs (iban.drop 4) &&
        (iso7064Mod9710 (iso13616Prepare iban) == 1)) := by
  unfold Specification.isValid
  by_cases h1 : spec.length = iban.length
  · by_cases h2 : spec.countryCode = iban.take 2
    · simp [h1, h2, hp]
    · simp [h1, h2]
  · simp [h1]

theorem isValid_ok_true {spec : Specification} {segs : List Segment} {iban : List Char}
    (hp : parseStructure spec.struct = Except.ok segs)
    (h : spec.isValid iban = Except.ok true) :
    spec.length = iban.length ∧ spec.countryCode = iban.take 2 ∧
      matchSegs segs (iban.drop 4) = true ∧
      iso7064Mod9710 (iso13616Prepare iban) = 1 := by
  rw [isValid_eq spec segs iban hp] at h
  have hb := h
  simp only [Except.ok.injEq, Bool.and_eq_true, decide_eq_true_eq, beq_iff_eq] at hb
  tauto

theorem isValidBBAN_eq (spec : Specification) (segs : List Segment) (bban : List Char)
    (hp : parseStructure spec.struct = Except.ok segs) :
    spec.isValidBBAN bban =
      Except.ok (decide (spec.length - 4 = bban.length) && matchSegs segs bban) := by
  unfold Specification.isValidBBAN
  by_cases h1 : spec.length - 4 = bban.length
  · simp [h1, hp]
  · simp [h1]

theorem isValidBBAN_ok_true {spec : Specification} {segs : List Segment} {bban : List Char}
    (hp : parseStructure spec.struct = Except.ok segs)
    (h : spec.isValidBBAN bban = Except.ok true) :
    spec.length - 4 = bban.length ∧ matchSegs segs bban = true := by
  rw [isValidBBAN_eq spec segs bban hp] at h
  simp only [Except.ok.injEq, Bool.and_eq_true, decide_eq_true_eq] at h
  exact h

theorem fromBBAN_eq {spec : Specification} {bban : List Char}
    (h : spec.isValidBBAN bban = Except.ok true) :
    spec.fromBBAN bban = Except.ok (spec.countryCode ++
      pad2JS (98 - iso7064Mod9710 (iso13616Prepare
        (spec.countryCode ++ ['0', '0'] ++ bban))) ++ bban) := by
  unfold Specification.fromBBAN
  rw [h]

theorem toBBAN_eq (spec : Specification) (segs : List Segment) (iban sep : List Char)
    (hp : parseStructure spec.struct = Except.ok segs) :
    spec.toBBAN iban sep =
      match extractSegs segs (iban.drop 4) with
      | none => Except.error ("Invalid IBAN".toList)
      | some blocks => Except.ok (joinSep sep blocks) := by
  unfold Specification.toBBAN
  rw [hp]

/-- The generated check code revalidates to remainder 1: the arithmetic
core of the check-digit generation. -/
theorem checkdigit_revalidates (V r : Nat) (hr : r = V * 100 % 97) :
    (V * 100 + (98 - r)) % 97 = 1 := by
  have hd := Nat.div_add_mod (V * 100) 97
  have hlt : r < 97 := by
    rw [hr]
    exact Nat.mod_lt _ (by omega)
  set q := V * 100 / 97
  have he : V * 100 + (98 - r) = 98 + 97 * q := by omega
  rw [he, Nat.add_mul_mod_self_left]

/-! The claims. -/

/-- C8: for every string, electronicFormat removes exactly the characters
outside 0-9A-Za-z and uppercases the rest, and it is idempotent. -/
theorem C8_electronicFormat_idem :
    ∀ s : List Char,
      electronicFormat s = (s.filter isAlnumB).map jsToUpper ∧
      electronicFormat (electronicFormat s) = electronicFormat s :=
  fun s => ⟨rfl, ef_idem s⟩

/-- C9: printFormat normalizes its input and inserts the separator after
every 4 characters; electronicFormat is a left inverse of printFormat with
the space separator; and the Belgian example prints as BE68 5390 0754 7034. -/
theorem C9_printFormat_left_inverse :
    (∀ s : List Char,
      printFormat s " ".toList = joinSep " ".toList (chunks4 (electronicFormat s)) ∧
      electronicFormat (printFormat s " ".toList) = electronicFormat s) ∧
    printFormat "BE68539007547034".toList " ".toList =
      "BE68 5390 0754 7034".toList := by
  refine ⟨fun s => ⟨rfl, ?_⟩, by decide⟩
  have hsep : (" ".toList).all (fun c => !isAlnumB c) = true := by decide
  simp only [printFormat]
  rw [ef_joinSep hsep (chunks4 (electronicFormat s))]
  have hch := chunks4_all (ef_all_alnumUpper s)
  rw [List.all_eq_true] at hch
  rw [List.map_congr_left (fun b hb => ef_fixed (hch b hb)), list_map_id,
    chunks4_flatten]

/-- C2 counterexample: on the all-digit input 98 the loop never runs, and
the source returns the final parseInt result taken modulo 97, namely 1,
whereas the claim's final step (return the remaining string's integer
value, with no closing modulo) yields 98. -/
theorem C2_counterexample :
    iso7064Mod9710Claim ['9', '8'] = 98 ∧ iso7064Mod9710 ['9', '8'] = 1 ∧
      iso7064Mod9710 ['9', '8'] ≠ iso7064Mod9710Claim ['9', '8'] := by
  decide

/-- C2 (amended): on an all-digit string, iso7064Mod9710 runs the claimed
streaming loop (splice the 1-2 digit remainder of each up-to-9-digit
prefix back until at most two characters remain), and then returns the
remaining string's integer value MODULO 97 (the original claim omitted
the final modulo). -/
theorem C2_iso7064_streaming :
    ∀ s : List Char, s.all isDigitB = true →
      iso7064Mod9710 s = iso7064Mod9710Claim s % 97 ∧
      (mod97Loop s).length ≤ 2 ∧
      (2 < s.length → mod97Loop s = mod97Loop (mod97Step s)) ∧
      (s.length ≤ 2 → mod97Loop s = s) := by
  intro s _
  refine ⟨rfl, mod97Loop_length s, ?_, ?_⟩
  · intro h
    rw [mod97Loop_eq s, if_pos h]
  · intro h
    rw [mod97Loop_eq s, if_neg (Nat.not_lt.mpr h)]

/-- C2 witness: the amended claim applied to the concrete all-digit
string 0000001068, whose loop runs twice. -/
theorem C2_witness :
    ("0000001068".toList.all isDigitB = true) ∧
      (iso7064Mod9710 "0000001068".toList =
        iso7064Mod9710Claim "0000001068".toList % 97 ∧
      (mod97Loop "0000001068".toList).length ≤ 2 ∧
      (2 < "0000001068".toList.length →
        mod97Loop "0000001068".toList = mod97Loop (mod97Step "0000001068".toList)) ∧
      ("0000001068".toList.length ≤ 2 → mod97Loop "0000001068".toList = "0000001068".toList)) :=
  ⟨by decide, C2_iso7064_streaming "0000001068".toList (by decide)⟩

/-- C6 counterexample: the unrecognized class code X does not raise: the
compiler silently produces a matcher whose only block matches 2
characters drawn from the letters of the string undefined. -/
theorem C6_counterexample :
    parseStructure ['X', '0', '2'] = Except.ok [⟨CharSet.undefinedSet, 2⟩] := by
  decide

/-- C6 (amended): a descriptor with no complete 3-character block (length
below 3) raises the configuration error; an unrecognized class code does
NOT raise but silently produces a matcher block over the characters of
the string undefined; and a descriptor whose length is at least 3 but not
a multiple of 3 does not raise either, its trailing remainder being
ignored (witnessed by F041 compiling exactly like F04). -/
theorem C6_parseStructure_failure :
    (∀ s : List Char, s.length < 3 →
      parseStructure s =
        Except.error ("Something went wrong while parsing the structure".toList)) ∧
    parseStructure ['X', '0', '2'] = Except.ok [⟨CharSet.undefinedSet, 2⟩] ∧
    parseStructure ['F', '0', '4', '1'] = parseStructure ['F', '0', '4'] := by
  refine ⟨?_, by decide, by decide⟩
  intro s h
  have hc : chunks3 s = [] := by
    cases s with
    | nil => rfl
    | cons a t =>
        cases t with
        | nil => rfl
        | cons b t2 =>
            cases t2 with
            | nil => rfl
            | cons c t3 => simp at h; omega
  simp [parseStructure, hc]

/-- C6 witness: the raising branch of the amended claim at the
one-character descriptor F. -/
theorem C6_witness :
    (['F'] : List Char).length < 3 ∧
      parseStructure ['F'] =
        Except.error ("Something went wrong while parsing the structure".toList) :=
  ⟨by decide, C6_parseStructure_failure.1 ['F'] (by decide)⟩

/-- C7: on a string of digits and uppercase letters, iso13616Prepare
moves the first 4 characters to the end and replaces each letter by its
numeric value (ordinal minus the ordinal of A, plus 10); the result is an
all-digit string, and each letter contributes exactly 2 digits, so the
output length is the input length plus the number of letters. -/
theorem C7_iso13616Prepare_shape :
    ∀ s : List Char, s.all isAlnumUpperB = true →
      iso13616Prepare s = expandList (s.drop 4 ++ s.take 4) ∧
      (iso13616Prepare s).all isDigitB = true ∧
      (iso13616Prepare s).length = s.length + s.countP isUpperB := by
  intro s h
  have hdt : (s.drop 4 ++ s.take 4).all isAlnumUpperB = true := by
    rw [List.all_eq_true] at h ⊢
    intro c hc
    rw [List.mem_append] at hc
    rcases hc with hc | hc
    · exact h c (List.mem_of_mem_drop hc)
    · exact h c (List.mem_of_mem_take hc)
  refine ⟨prepare_fixed h, ?_, ?_⟩
  · rw [prepare_fixed h]
    exact expandList_all_digits hdt
  · rw [prepare_fixed h, expandList_length hdt]
    have h1 : (s.drop 4 ++ s.take 4).length = s.length := by
      simp only [List.length_append, List.length_drop, List.length_take]
      omega
    have h2 : (s.drop 4 ++ s.take 4).countP isUpperB = s.countP isUpperB := by
      rw [List.countP_append]
      conv_rhs => rw [← List.take_append_drop 4 s, List.countP_append]
      omega
    omega

/-- C7 witness: the shape theorem applied to the Belgian example IBAN. -/
theorem C7_witness :
    (ibanBE.all isAlnumUpperB = true) ∧
      (iso13616Prepare ibanBE = expandList (ibanBE.drop 4 ++ ibanBE.take 4) ∧
       (iso13616Prepare ibanBE).all isDigitB = true ∧
       (iso13616Prepare ibanBE).length = ibanBE.length + ibanBE.countP isUpperB) :=
  ⟨by decide, C7_iso13616Prepare_shape ibanBE (by decide)⟩

/-- C10: a compiled matcher accepts a string only if its length is the
sum of the block lengths; hence for a specification whose block lengths
sum to the declared length minus 4, the separate length comparison in
Specification.isValidBBAN is implied by the matcher test, and the two
conjuncts accept exactly the same strings; every entry of the registry
satisfies that sum condition. -/
theorem C10_matcher_length :
    (∀ (st : List Char) (segs : List Segment) (s : List Char),
      parseStructure st = Except.ok segs → matchSegs segs s = true →
      s.length = sumLens segs) ∧
    (∀ (spec : Specification) (segs : List Segment) (bban : List Char),
      parseStructure spec.struct = Except.ok segs →
      sumLens segs = spec.length - 4 →
      ((spec.length - 4 = bban.length ∧ matchSegs segs bban = true) ↔
        matchSegs segs bban = true)) ∧
    COUNTRIES.all (fun p =>
      match parseStructure p.2.struct with
      | Except.ok segs => decide (sumLens segs = p.2.length - 4)
      | Except.error _ => false) = true := by
  refine ⟨fun st segs s _ hm => matchSegs_length segs s hm, ?_, by decide⟩
  intro spec segs bban _ hsum
  constructor
  · exact fun h => h.2
  · intro h
    refine ⟨?_, h⟩
    rw [← hsum]
    exact (matchSegs_length segs bban h).symm

/-- C10 witness: both universal parts applied to the Belgian descriptor,
matcher and example BBAN. -/
theorem C10_witness :
    (parseStructure "F03F07F02".toList = Except.ok segsBE) ∧
      (matchSegs segsBE bbanBE = true) ∧
      (bbanBE.length = sumLens segsBE) ∧
      (sumLens segsBE = specBE.length - 4) ∧
      ((specBE.length - 4 = bbanBE.length ∧ matchSegs segsBE bbanBE = true) ↔
        matchSegs segsBE bbanBE = true) :=
  ⟨by decide, by decide,
    C10_matcher_length.1 "F03F07F02".toList segsBE bbanBE (by decide) (by decide),
    by decide,
    C10_matcher_length.2.1 specBE segsBE bbanBE (by decide) (by decide)⟩

/-- C1: for a specification whose descriptor compiles and a normalized
IBAN string, Specification.isValid returns ok true exactly when the four
conditions hold (declared length, country code on the first 2 characters,
matcher on the portion from offset 4, MOD 97-10 reduction of the prepared
string equal to 1), and it returns ok of a boolean - it never raises. -/
theorem C1_specification_isValid :
    ∀ (spec : Specification) (segs : List Segment) (iban : List Char),
      parseStructure spec.struct = Except.ok segs →
      iban.all isAlnumUpperB = true →
      ((spec.isValid iban = Except.ok true ↔
        (spec.length = iban.length ∧ spec.countryCode = iban.take 2 ∧
         matchSegs segs (iban.drop 4) = true ∧
         iso7064Mod9710 (iso13616Prepare iban) = 1)) ∧
       (spec.isValid iban = Except.ok true ∨ spec.isValid iban = Except.ok false)) := by
  intro spec segs iban hp _
  rw [isValid_eq spec segs iban hp]
  constructor
  · simp only [Except.ok.injEq, Bool.and_eq_true, decide_eq_true_eq, beq_iff_eq]
    tauto
  · rcases Bool.eq_false_or_eq_true (decide (spec.length = iban.length) &&
      decide (spec.countryCode = iban.take 2) && matchSegs segs (iban.drop 4) &&
      (iso7064Mod9710 (iso13616Prepare iban) == 1)) with h | h
    · rw [h]
      left
      rfl
    · rw [h]
      right
      rfl

/-- C1 witness: the equivalence applied to Belgium and its example IBAN. -/
theorem C1_witness :
    (parseStructure specBE.struct = Except.ok segsBE) ∧
      (ibanBE.all isAlnumUpperB = true) ∧
      ((specBE.isValid ibanBE = Except.ok true ↔
        (specBE.length = ibanBE.length ∧ specBE.countryCode = ibanBE.take 2 ∧
         matchSegs segsBE (ibanBE.drop 4) = true ∧
         iso7064Mod9710 (iso13616Prepare ibanBE) = 1)) ∧
       (specBE.isValid ibanBE = Except.ok true ∨
        specBE.isValid ibanBE = Except.ok false)) :=
  ⟨by decide, by decide, C1_specification_isValid specBE segsBE ibanBE (by decide) (by decide)⟩

/-- C5: for a specification whose descriptor compiles,
Specification.toBBAN raises Invalid IBAN exactly when the portion of the
IBAN from offset 4 does not match the compiled matcher, and on a match it
returns the extracted per-block substrings joined with the separator; the
Belgian example with separator - yields 539-0075470-34 (via the top-level
toBBAN, which normalizes first). -/
theorem C5_toBBAN_blocks :
    (∀ (spec : Specification) (segs : List Segment) (iban sep : List Char),
      parseStructure spec.struct = Except.ok segs →
      ((spec.toBBAN iban sep = Except.error ("Invalid IBAN".toList) ↔
        matchSegs segs (iban.drop 4) = false) ∧
       (∀ blocks, extractSegs segs (iban.drop 4) = some blocks →
         spec.toBBAN iban sep = Except.ok (joinSep sep blocks)))) ∧
    toBBAN "BE68 5390 0754 7034".toList "-".toList =
      Except.ok "539-0075470-34".toList := by
  refine ⟨?_, by decide⟩
  intro spec segs iban sep hp
  rw [toBBAN_eq spec segs iban sep hp]
  have hiff := extractSegs_isSome_iff segs (iban.drop 4)
  cases hext : extractSegs segs (iban.drop 4) with
  | none =>
      rw [hext] at hiff
      simp only [Option.isSome_none] at hiff
      refine ⟨⟨fun _ => hiff.symm, fun _ => rfl⟩, ?_⟩
      intro blocks hb
      simp at hb
  | some bs =>
      rw [hext] at hiff
      simp only [Option.isSome_some] at hiff
      constructor
      · constructor
        · intro h
          cases h
        · intro h
          rw [← hiff] at h
          cases h
      · intro blocks hb
        injection hb with hb2
        rw [hb2]

/-- C5 witness: the extraction branch applied to Belgium, its compiled
matcher, the normalized example IBAN and the separator -. -/
theorem C5_witness :
    (parseStructure specBE.struct = Except.ok segsBE) ∧
      (extractSegs segsBE (ibanBE.drop 4) = some blocksBE) ∧
      specBE.toBBAN ibanBE "-".toList = Except.ok (joinSep "-".toList blocksBE) :=
  ⟨by decide, by decide,
    ((C5_toBBAN_blocks.1 specBE segsBE ibanBE "-".toList (by decide)).2 blocksBE (by decide))⟩

/-- Every registry entry's structure descriptor compiles. -/
theorem registry_parse_ok :
    ∀ p ∈ COUNTRIES, ∃ segs, parseStructure p.2.struct = Except.ok segs := by
  have hall : COUNTRIES.all (fun p => (parseStructure p.2.struct).isOk) = true := by
    decide
  rw [List.all_eq_true] at hall
  intro p hp
  have h := hall p hp
  cases he : parseStructure p.2.struct with
  | ok segs => exact ⟨segs, rfl⟩
  | error e =>
      rw [he] at h
      cases h

/-- A successful getCountry lookup returns a registry member. -/
theorem getCountry_mem {cc : List Char} {spec : Specification}
    (h : getCountry cc = Except.ok spec) :
    ∃ p ∈ COUNTRIES, p.2 = spec := by
  unfold getCountry at h
  cases hf : COUNTRIES.find? (fun p => p.1 == cc) with
  | none =>
      rw [hf] at h
      cases h
  | some p =>
      rw [hf] at h
      injection h with h2
      exact ⟨p, List.mem_of_find?_eq_some hf, h2⟩

/-- C4 counterexample: the top-level isValidBBAN raises (rather than
returning false) when the country code is not registered. -/
theorem C4_counterexample :
    isValidBBAN "ZZ".toList (JSVal.str "539007547034".toList) =
      Except.error ("No country with code ZZ".toList) := by
  decide

/-- C4 (amended): the top-level isValid is a total boolean predicate:
false for a non-string input and false whenever its inner pipeline
(normalization, country lookup, specification check) raises.  The
top-level isValidBBAN returns ok false for a non-string BBAN and never
raises when the country code is registered, but - contrary to the
original claim - it propagates the unknown-country error when the country
code is not registered. -/
theorem C4_predicates_no_raise :
    (isValid JSVal.other = false) ∧
    (∀ s e, isValidInner s = Except.error e → isValid (JSVal.str s) = false) ∧
    (∀ cc, isValidBBAN cc JSVal.other = Except.ok false) ∧
    (∀ cc spec bban, getCountry cc = Except.ok spec →
      (isValidBBAN cc (JSVal.str bban)).isOk = true) ∧
    (∀ cc bban e, getCountry cc = Except.error e →
      isValidBBAN cc (JSVal.str bban) = Except.error e) := by
  refine ⟨rfl, ?_, fun cc => rfl, ?_, ?_⟩
  · intro s e h
    show (match isValidInner s with
      | Except.error _ => false
      | Except.ok b => b) = false
    rw [h]
  · intro cc spec bban hg
    obtain ⟨p, hmem, hspec⟩ := getCountry_mem hg
    obtain ⟨segs, hsegs⟩ := registry_parse_ok p hmem
    rw [hspec] at hsegs
    show ((match getCountry cc with
      | Except.error e => Except.error e
      | Except.ok spec => spec.isValidBBAN (electronicFormat bban)) :
        Except (List Char) Bool).isOk = true
    rw [hg]
    show (spec.isValidBBAN (electronicFormat bban)).isOk = true
    rw [isValidBBAN_eq spec segs (electronicFormat bban) hsegs]
    rfl
  · intro cc bban e hg
    show (match getCountry cc with
      | Except.error e => Except.error e
      | Except.ok spec => spec.isValidBBAN (electronicFormat bban)) =
        Except.error e
    rw [hg]

/-- C4 witness: the universal parts applied to concrete inputs: the
unknown code ZZ makes the inner isValid pipeline raise and isValid return
false, and makes isValidBBAN propagate the error, while the registered
code BE keeps isValidBBAN raise-free. -/
theorem C4_witness :
    (isValidInner "ZZ68539007547034".toList =
      Except.error ("No country with code ZZ".toList)) ∧
    (isValid (JSVal.str "ZZ68539007547034".toList) = false) ∧
    (getCountry "BE".toList = Except.ok specBE) ∧
    ((isValidBBAN "BE".toList (JSVal.str "539007547034".toList)).isOk = true) ∧
    (getCountry "ZZ".toList = Except.error ("No country with code ZZ".toList)) ∧
    (isValidBBAN "ZZ".toList (JSVal.str "539007547034".toList) =
      Except.error ("No country with code ZZ".toList)) :=
  ⟨by decide,
    C4_predicates_no_raise.2.1 "ZZ68539007547034".toList
      ("No country with code ZZ".toList) (by decide),
    by decide,
    C4_predicates_no_raise.2.2.2.1 "BE".toList specBE "539007547034".toList (by decide),
    by decide,
    C4_predicates_no_raise.2.2.2.2 "ZZ".toList "539007547034".toList
      ("No country with code ZZ".toList) (by decide)⟩

/-- C3 counterexample: the 16-character string BE00000000000002 is
accepted by the Belgian Specification.isValid (its prepared value is
congruent to 1 modulo 97 although its check digits are 00), yet fromBBAN
on its country code and BBAN portion returns BE97000000000002, not the
original string: the round-trip of the claim fails on it. -/
theorem C3_counterexample :
    specBE.isValid ibanBEZero = Except.ok true ∧
      specBE.fromBBAN (ibanBEZero.drop 4) = Except.ok "BE97000000000002".toList ∧
      ("BE97000000000002".toList : List Char) ≠ ibanBEZero := by
  decide

/-- C3 (amended): for a specification with a 2-letter uppercase country
code and a compiling descriptor, (1) fromBBAN on an accepted BBAN returns
country code + check digits + BBAN, the check digits being 98 minus the
MOD 97-10 reduction of the prepared string with 00 in check position,
zero-padded to 2 digits, and the resulting IBAN re-prepares and reduces
to remainder 1; and (2) the round-trip holds for every valid IBAN WHOSE
CHECK-DIGIT POSITIONS HOLD TWO DECIMAL DIGITS WITH VALUE BETWEEN 2 AND 98
(the original claim asserted it for every valid IBAN; the counterexample
shows it fails when the check characters are the degenerate pair 00). -/
theorem C3_fromBBAN_checkdigits :
    (∀ (spec : Specification) (segs : List Segment) (bban : List Char),
      parseStructure spec.struct = Except.ok segs →
      spec.countryCode.length = 2 → spec.countryCode.all isUpperB = true →
      spec.isValidBBAN bban = Except.ok true →
      spec.fromBBAN bban = Except.ok (spec.countryCode ++
        pad2JS (98 - iso7064Mod9710 (iso13616Prepare
          (spec.countryCode ++ ['0', '0'] ++ bban))) ++ bban) ∧
      iso7064Mod9710 (iso13616Prepare (spec.countryCode ++
        pad2JS (98 - iso7064Mod9710 (iso13616Prepare
          (spec.countryCode ++ ['0', '0'] ++ bban))) ++ bban)) = 1) ∧
    (∀ (spec : Specification) (segs : List Segment) (d1 d2 : Char) (bban : List Char),
      parseStructure spec.struct = Except.ok segs →
      spec.countryCode.length = 2 → spec.countryCode.all isUpperB = true →
      isDigitB d1 = true → isDigitB d2 = true →
      2 ≤ 10 * digitVal d1 + digitVal d2 →
      10 * digitVal d1 + digitVal d2 ≤ 98 →
      spec.isValid (spec.countryCode ++ [d1, d2] ++ bban) = Except.ok true →
      spec.fromBBAN bban = Except.ok (spec.countryCode ++ [d1, d2] ++ bban)) := by
  have hck0 : (['0', '0'] : List Char).all isDigitB = true := by decide
  have h00 : digitsToNat ['0', '0'] = 0 := by decide
  constructor
  · intro spec segs bban hp hcc2 hccU hb
    set V := digitsToNat
      (expandList (bban.map jsToUpper) ++ expandList spec.countryCode) with hV
    have hr : iso7064Mod9710 (iso13616Prepare
        (spec.countryCode ++ ['0', '0'] ++ bban)) =
        (V * 100 + digitsToNat ['0', '0']) % 97 :=
      prepare_value spec.countryCode ['0', '0'] bban hcc2 hccU rfl hck0
    set r := iso7064Mod9710 (iso13616Prepare
      (spec.countryCode ++ ['0', '0'] ++ bban)) with hrdef
    have hrlt : r < 97 := by
      rw [hr]
      exact Nat.mod_lt _ (by omega)
    have hd98 : 98 - r < 100 := by omega
    obtain ⟨hpl, hpd, hpv⟩ := pad2_facts hd98
    refine ⟨fromBBAN_eq hb, ?_⟩
    rw [prepare_value spec.countryCode (pad2JS (98 - r)) bban hcc2 hccU hpl hpd, hpv]
    apply checkdigit_revalidates V r
    rw [hr, h00]
    omega
  · intro spec segs d1 d2 bban hp hcc2 hccU hd1 hd2 hlo hhi hv
    obtain ⟨hlen, hcc, hmatch4, hiso⟩ := isValid_ok_true hp hv
    have hdropped : (spec.countryCode ++ [d1, d2] ++ bban).drop 4 = bban := by
      have h4 : (spec.countryCode ++ [d1, d2]).length = 4 := by
        simp [hcc2]
      rw [← h4]
      exact List.drop_left _ _
    rw [hdropped] at hmatch4
    have hlen2 : spec.length - 4 = bban.length := by
      have hl : (spec.countryCode ++ [d1, d2] ++ bban).length = 4 + bban.length := by
        simp [hcc2]
        omega
      omega
    have hb : spec.isValidBBAN bban = Except.ok true := by
      rw [isValidBBAN_eq spec segs bban hp]
      simp [hlen2, hmatch4]
    set V := digitsToNat
      (expandList (bban.map jsToUpper) ++ expandList spec.countryCode) with hV
    have hckD : ([d1, d2] : List Char).all isDigitB = true := by
      simp [hd1, hd2]
    have hvald : iso7064Mod9710 (iso13616Prepare
        (spec.countryCode ++ [d1, d2] ++ bban)) =
        (V * 100 + (10 * digitVal d1 + digitVal d2)) % 97 := by
      rw [prepare_value spec.countryCode [d1, d2] bban hcc2 hccU rfl hckD,
        digitsToNat_two]
    rw [hvald] at hiso
    have hr : iso7064Mod9710 (iso13616Prepare
        (spec.countryCode ++ ['0', '0'] ++ bban)) =
        (V * 100 + digitsToNat ['0', '0']) % 97 :=
      prepare_value spec.countryCode ['0', '0'] bban hcc2 hccU rfl hck0
    rw [h00] at hr
    have hkey : 98 - iso7064Mod9710 (iso13616Prepare
        (spec.countryCode ++ ['0', '0'] ++ bban)) =
        10 * digitVal d1 + digitVal d2 := by
      omega
    rw [fromBBAN_eq hb, hkey, pad2_of_digits hd1 hd2]

/-- C3 witness: both parts applied to Belgium: check-digit generation on
the example BBAN (with its revalidation to remainder 1), and the
round-trip on the example IBAN BE68539007547034, whose check digits 68
lie in the amended range. -/
theorem C3_witness :
    (parseStructure specBE.struct = Except.ok segsBE) ∧
    (specBE.countryCode.length = 2) ∧
    (specBE.countryCode.all isUpperB = true) ∧
    (specBE.isValidBBAN bbanBE = Except.ok true) ∧
    (specBE.fromBBAN bbanBE = Except.ok (specBE.countryCode ++
      pad2JS (98 - iso7064Mod9710 (iso13616Prepare
        (specBE.countryCode ++ ['0', '0'] ++ bbanBE))) ++ bbanBE) ∧
     iso7064Mod9710 (iso13616Prepare (specBE.countryCode ++
      pad2JS (98 - iso7064Mod9710 (iso13616Prepare
        (specBE.countryCode ++ ['0', '0'] ++ bbanBE))) ++ bbanBE)) = 1) ∧
    (specBE.isValid (specBE.countryCode ++ ['6', '8'] ++ bbanBE) = Except.ok true) ∧
    (specBE.fromBBAN bbanBE = Except.ok (specBE.countryCode ++ ['6', '8'] ++ bbanBE)) :=
  ⟨by decide, by decide, by decide, by decide,
    C3_fromBBAN_checkdigits.1 specBE segsBE bbanBE
      (by decide) (by decide) (by decide) (by decide),
    by decide,
    C3_fromBBAN_checkdigits.2 specBE segsBE '6' '8' bbanBE
      (by decide) (by decide) (by decide) (by decide) (by decide)
      (by decide) (by decide) (by decide)⟩
